import Mathlib

/-!
Shallow embedding of `src/parse.py` (TBFSBS: Text-Based Format for Storing
Biological Sequences).

The Python module defines a record class `TBFSBS_Record` (header fields and a
sequence payload, with a summary rendering `__str__`) and a collection class
`TBFSBS` (an ordered list of records, with `parse` reading records from text
and `write` serialising them back with `textwrap.fill` line wrapping).

Modelling conventions:
* Python floats are modelled as `ℚ`.  `float(...)` applied to a header token
  is modelled for plain decimal literals (optional sign, digits, at most one
  decimal point); exponent forms, `inf`, `nan` and digit underscores are not
  modelled.  `str(float)` is modelled for values with a terminating decimal
  expansion in the non-scientific-notation range, which covers every value
  the claims touch; Python's `str` of a float is shortest-round-trip, so on
  this domain it prints the minimal decimal digits.
* Python file line iteration is modelled by `pyLines`, which drops the line
  terminators; `startswith`, `split()` and `rstrip()` never look at them.
  Text-mode universal-newline translation of a bare carriage return is not
  modelled (no claim depends on it).
* `parse` mutates `self` and can raise (`IndexError` on a header without an
  identifier token; `NameError` when the body accumulator or the final flush
  touches never-assigned variables because no header was ever seen).  It is
  modelled as `Except` whose error carries the records appended before the
  failure, with the two failure conditions named after the specification's
  `MalformedRecord` taxonomy.
* `textwrap.fill` is modelled with the default `TextWrapper` options used by
  `write` (`replace_whitespace`, `drop_whitespace`, `break_long_words`,
  `break_on_hyphens`, no indents, no `max_lines`).  The word-separator
  regular expression `wordsep_re` is modelled operationally: its successive
  matches tile the munged text into whitespace runs, em-dash runs, and
  words found by a lazy scan that may end just after a hyphen.  The
  character classes `[^\d\W]` (letter) and `\w` (word character) are
  modelled over ASCII; non-ASCII letters are not modelled.  `_handle_long_word`
  is modelled with its `break_on_hyphens` clause (break after the last
  fitting hyphen preceded by non-hyphen text).  `wrap = None` models the
  unbounded width (`float("inf")`) default of the command line; Python
  raises for `width <= 0`, so a zero width is outside the modelled domain.
-/

/-- ASCII whitespace as recognised by Python's `str.split()` / `str.rstrip()`
and `textwrap`'s whitespace munging (space, tab, newline, vertical tab,
form feed, carriage return).  Non-ASCII whitespace is not modelled. -/
def pyIsSpace (c : Char) : Bool :=
  c == ' ' || c == '\t' || c == '\n' || c == '\x0b' || c == '\x0c' || c == '\r'

/-- Python `str.rstrip()`: remove trailing whitespace characters. -/
def pyRstrip (s : String) : String :=
  String.mk ((s.data.reverse.dropWhile pyIsSpace).reverse)

/-- Python `row.startswith(c)` for a one-character test string: the first
character equals `c`. -/
def pyStartsWith (s : String) (c : Char) : Bool :=
  match s.data with
  | d :: _ => d == c
  | [] => false

/-- Split a character list at every newline, keeping empty pieces (the
behaviour of `"..".split("\n")`). -/
def splitOnNl : List Char → List (List Char)
  | [] => [[]]
  | c :: cs =>
    if c = '\n' then [] :: splitOnNl cs
    else
      match splitOnNl cs with
      | [] => [[c]]
      | p :: ps => (c :: p) :: ps

/-- Python text-file line iteration, without the line terminators: split on
newline and drop the empty piece a trailing newline leaves behind. -/
def pyLines (s : String) : List String :=
  let parts := (splitOnNl s.data).map String.mk
  match parts.getLast? with
  | some last => if last = "" then parts.dropLast else parts
  | none => parts

/-- The maximal non-whitespace runs of a character list, in order. -/
def pyTokens : List Char → List (List Char)
  | [] => []
  | [c] => if pyIsSpace c then [] else [[c]]
  | c :: d :: cs =>
    if pyIsSpace c then pyTokens (d :: cs)
    else
      match pyTokens (d :: cs) with
      | [] => [[c]]
      | t :: ts => if pyIsSpace d then [c] :: t :: ts else (c :: t) :: ts

/-- Python `str.split()` with no argument: split on whitespace runs,
discarding empty tokens. -/
def pySplit (s : String) : List String :=
  (pyTokens s.data).map String.mk

/-- Value of a string of decimal digits. -/
def digitsToNat (cs : List Char) : ℕ :=
  cs.foldl (fun a c => 10 * a + (c.toNat - 48)) 0

/-- Model of Python `float(token)` for plain decimal literals: optional sign,
digits, at most one decimal point, at least one digit.  Exponent forms,
`inf`/`nan`, underscores and surrounding whitespace are not modelled (header
tokens never contain whitespace). -/
def pyFloat? (s : String) : Option ℚ :=
  match s.data with
  | [] => none
  | c :: cs0 =>
    let body := if c = '-' ∨ c = '+' then cs0 else c :: cs0
    let sgn : ℤ := if c = '-' then -1 else 1
    let ip := body.takeWhile (fun d => d ≠ '.')
    match body.dropWhile (fun d => d ≠ '.') with
    | [] =>
      if ip ≠ [] ∧ ip.all Char.isDigit = true then
        some (mkRat (sgn * digitsToNat ip) 1)
      else none
    | _ :: fp =>
      if ip ++ fp ≠ [] ∧ ip.all Char.isDigit = true ∧ fp.all Char.isDigit = true ∧
          fp.contains '.' = false then
        some (mkRat (sgn * (digitsToNat ip * 10 ^ fp.length + digitsToNat fp))
          (10 ^ fp.length))
      else none

/-- Left-pad a digit string with zeros to width `k`. -/
def padZeros (s : String) (k : ℕ) : String :=
  String.mk (List.replicate (k - s.length) '0') ++ s

/-- Model of Python `str()` on a float: print the (minimal) terminating
decimal expansion, always keeping at least one digit after the point.
The smallest `k ≤ 40` with `den ∣ 10 ^ k` gives `q = n / 10 ^ k` with no
trailing fractional zero.  Faithful on values with such an expansion in the
range where Python avoids scientific notation. -/
def pyFloatStr (q : ℚ) : String :=
  match (List.range 40).find? (fun k => 10 ^ k % q.den = 0) with
  | none => ""
  | some k =>
    let n : ℤ := q.num * ((10 ^ k / q.den : ℕ) : ℤ)
    let a : ℕ := n.natAbs
    let sgn := if n < 0 then "-" else ""
    if k = 0 then sgn ++ toString a ++ ".0"
    else sgn ++ toString (a / 10 ^ k) ++ "." ++ padZeros (toString (a % 10 ^ k)) k

/-- Round-half-to-even of the fraction `a / b` (for `b > 0`) to an integer
(the tie-breaking rule of Python's `round`): with `q = ⌊a / b⌋` and
remainder `r = a - q * b`, compare the fractional part `r / b` against one
half. -/
def roundHalfEvenFrac (a : ℤ) (b : ℕ) : ℤ :=
  let q := a.fdiv b
  let r := a - q * b
  if 2 * r < (b : ℤ) then q
  else if (b : ℤ) < 2 * r then q + 1
  else if q % 2 = 0 then q else q + 1

/-- Model of Python `round(x, 1)`: round `10 x` (the exact fraction
`10 num / den`) to an integer, ties to even, and divide by 10. -/
def pyRound1 (x : ℚ) : ℚ :=
  mkRat (roundHalfEvenFrac (10 * x.num) x.den) 10

/-- One TBFSBS entry (`class TBFSBS_Record`).  The parser always supplies
strings for `identifier`, `description` and `sequence` (the Python
constructor's `None` defaults are not modelled); `target_value` keeps its
optional character, `None` being distinct from `0.0`. -/
structure TBFSBS_Record where
  identifier : String
  target_value : Option ℚ
  description : String
  sequence : String
deriving DecidableEq

/-- Rendered value field of `TBFSBS_Record.__str__`: `str(None)` is the
literal `"None"`, a float is printed with `str`. -/
def displayOptFloat : Option ℚ → String
  | none => "None"
  | some x => pyFloatStr x

/-- `TBFSBS_Record.__str__`: the 4-line summary block.  The source computes
`value = self.target_value` and only rounds when `self.target_value` is
truthy, so `None` and `0.0` skip the rounding. -/
def TBFSBS_Record.str (r : TBFSBS_Record) : String :=
  let value : Option ℚ :=
    match r.target_value with
    | some x => if x = 0 then some x else some (pyRound1 x)
    | none => none
  "ID: " ++ r.identifier ++ "\nValue: " ++ displayOptFloat value ++
    "\nDescription: " ++ r.description ++ "\nSequence length: " ++
    toString r.sequence.length ++ "\n"

/-- The ordered collection of records (`class TBFSBS`, a `MutableSequence`
backed by the Python list `self._list`). -/
structure TBFSBS where
  _list : List TBFSBS_Record
deriving DecidableEq

/-- `TBFSBS.__len__`. -/
def TBFSBS.len (c : TBFSBS) : ℕ := c._list.length

/-- `TBFSBS.append`: add one record at the end. -/
def TBFSBS.append (c : TBFSBS) (r : TBFSBS_Record) : TBFSBS :=
  ⟨c._list ++ [r]⟩

/-- `TBFSBS.extend`: add all records of another collection at the end, in
their order. -/
def TBFSBS.extend (c other : TBFSBS) : TBFSBS :=
  ⟨c._list ++ other._list⟩

/-- The specification's error taxonomy for `parse` failures: a header line
without its required identifier token (the source's `IndexError` at
`header[1]`), or touching the never-initialised state because no header was
ever seen (the source's `NameError` at `seq += row.rstrip()` and at the
unconditional final flush of the `for`/`else`). -/
inductive MalformedRecord where
  | missingIdentifier : MalformedRecord
  | noHeaderSeen : MalformedRecord
deriving DecidableEq

/-- Header-field extraction of `parse`: try `float(header[2])`; on success
the description is `header[3:]` joined by spaces, otherwise (including a
missing token, whose `IndexError` the bare `except` also catches) the value
is unset and the description is `header[2:]` joined by spaces. -/
def headerFields (tokens : List String) : Option ℚ × String :=
  match tokens.drop 2 with
  | [] => (none, "")
  | t :: rest =>
    match pyFloat? t with
    | some v => (some v, String.intercalate " " rest)
    | none => (none, String.intercalate " " (t :: rest))

/-- The line loop of `TBFSBS.parse`.  The pending record plays the role of
the variables `iD`/`target_value`/`description`/`seq`, `none` meaning no
header has been seen yet.  On error the records appended to `self` before
the failure are carried along. -/
def parseGo : List String → Option TBFSBS_Record → List TBFSBS_Record →
    Except (MalformedRecord × List TBFSBS_Record) (List TBFSBS_Record)
  | [], none, acc => .error (.noHeaderSeen, acc)
  | [], some pending, acc => .ok (acc ++ [pending])
  | row :: rest, pending?, acc =>
    if pyStartsWith row '%' then
      let acc' :=
        match pending? with
        | some pending => acc ++ [pending]
        | none => acc
      let tokens := pySplit row
      match tokens[1]? with
      | none => .error (.missingIdentifier, acc')
      | some iD =>
        let fields := headerFields tokens
        parseGo rest (some ⟨iD, fields.1, fields.2, ""⟩) acc'
    else
      match pending? with
      | none => .error (.noHeaderSeen, acc)
      | some p =>
        parseGo rest (some { p with sequence := p.sequence ++ pyRstrip row }) acc

/-- `TBFSBS.parse`: run the line loop over the file content and append the
parsed records to the collection (on error, the records flushed before the
failure). -/
def TBFSBS.parse (c : TBFSBS) (input : String) :
    Except (MalformedRecord × TBFSBS) TBFSBS :=
  match parseGo (pyLines input) none [] with
  | .ok rs => .ok ⟨c._list ++ rs⟩
  | .error (e, rs) => .error (e, ⟨c._list ++ rs⟩)

/-! Model of `textwrap.fill` with the `TextWrapper` defaults `write` relies
on.  The wrapping width is `Option ℕ`, `none` standing for the unbounded
default `float("inf")`. -/

/-- `_munge_whitespace`: with `replace_whitespace` every whitespace
character becomes a plain space (`expand_tabs` first turns tabs into
spaces-to-a-stop; tabs are covered here as single spaces, which agrees with
the translation table for lone tabs mid-text only up to tab stops — the
claims never exercise tabs). -/
def munge (cs : List Char) : List Char :=
  cs.map fun c => if pyIsSpace c then ' ' else c

/-- ASCII letter or underscore: the regex class `[^\d\W]` ("letter") of
`textwrap.wordsep_re`, restricted to ASCII. -/
def isLetterCh (c : Char) : Bool := c.isAlpha || c == '_'

/-- ASCII word character: the regex class `\w`, restricted to ASCII. -/
def isWordCh (c : Char) : Bool := c.isAlphanum || c == '_'

/-- The regex class `[\w!"\x27&.,?]` ("word punctuation") of
`wordsep_re`. -/
def isWordPunct (c : Char) : Bool :=
  isWordCh c || c == '!' || c == '"' || c == '\'' || c == '&' ||
    c == '.' || c == ',' || c == '?'

/-- Is the optional character an ASCII letter? -/
def optLetter (c? : Option Char) : Bool :=
  match c? with
  | some c => isLetterCh c
  | none => false

/-- Is the optional character an ASCII word character? -/
def optWord (c? : Option Char) : Bool :=
  match c? with
  | some c => isWordCh c
  | none => false

/-- The lookahead `-{2,}\w`: at least two leading hyphens, with a word
character right after the maximal hyphen run. -/
def emDashLookahead (rest : List Char) : Bool :=
  2 ≤ (rest.takeWhile (· == '-')).length &&
    optWord ((rest.dropWhile (· == '-'))[0]?)

/-- The hyphenated-word break of `wordsep_re`: at a boundary with reversed
prefix `left` (the text already consumed) and remaining text `rest`, a word
chunk may end just after a hyphen at the head of `rest`, when the
lookbehind `(?<=letter letter -)` or `(?<=letter - letter -)` and the
lookahead `(?=letter -? letter)` hold there. -/
def hyphenBreak (left rest : List Char) : Bool :=
  match rest with
  | [] => false
  | c :: rs =>
    c == '-' &&
    (optLetter left[0]? && (optLetter left[1]? ||
      (left[1]? == some '-' && optLetter left[2]?))) &&
    (optLetter rs[0]? && (optLetter rs[1]? ||
      (rs[1]? == some '-' && optLetter rs[2]?)))

/-- The end-of-word continuation `(?=\s|\Z)`: the remaining text is empty
or starts with whitespace. -/
def wordEnd (rest : List Char) : Bool :=
  match rest with
  | [] => true
  | c :: _ => pyIsSpace c

/-- The em-dash continuation `(?<=word_punct)(?=-{2,}\w)`: the last
consumed character is word punctuation and an em-dash run followed by a
word character lies ahead. -/
def emDashBreak (left rest : List Char) : Bool :=
  (match left with
   | d :: _ => isWordPunct d
   | [] => false) && emDashLookahead rest

/-- The lazy word scan of `wordsep_re`'s third alternative
(`\S+? (x | y | z)`): grow a non-whitespace token one character at a time
and stop at the first boundary where a continuation matches, in the
regex's order — the hyphenated-word break (which also consumes the
hyphen), the end of the word, or the em-dash lookahead.  `left` is the
reversed text before `rest`; the fuel argument is an embedding artifact,
always called with more fuel than there are characters to scan. -/
def wordScan : ℕ → List Char → List Char → List Char → List Char × List Char
  | 0, _, tok, rest => (tok, rest)
  | _ + 1, _, tok, [] => (tok, [])
  | fuel + 1, left, tok, c :: cs =>
    if !tok.isEmpty && hyphenBreak left (c :: cs) then (tok ++ [c], cs)
    else if !tok.isEmpty && wordEnd (c :: cs) then (tok, c :: cs)
    else if !tok.isEmpty && emDashBreak left (c :: cs) then (tok, c :: cs)
    else wordScan fuel (c :: left) (tok ++ [c]) cs

/-- One match of `wordsep_re` at the start of the (nonempty) remaining
text, with reversed prefix `left`: in the regex's alternative order, a
whitespace run, an em-dash run after word punctuation, or a word found by
the lazy scan.  Returns the chunk and the remaining text. -/
def wordsepStep (left rest : List Char) : List Char × List Char :=
  match rest with
  | [] => ([], [])
  | c :: cs =>
    if pyIsSpace c then
      ((c :: cs).takeWhile pyIsSpace, (c :: cs).dropWhile pyIsSpace)
    else if emDashBreak left (c :: cs) then
      ((c :: cs).takeWhile (· == '-'), (c :: cs).dropWhile (· == '-'))
    else wordScan (cs.length + 2) left [] (c :: cs)

/-- The chunk split of `textwrap._split` (with `break_on_hyphens`):
successive `wordsep_re` matches tile the text; `left` accumulates the
reversed text already consumed, which the regex lookbehinds may inspect
across chunk boundaries.  The fuel argument is an embedding artifact,
always called with more fuel than there are characters. -/
def wordsepSplit : ℕ → List Char → List Char → List (List Char)
  | 0, _, _ => []
  | _ + 1, _, [] => []
  | fuel + 1, left, c :: cs =>
    (wordsepStep left (c :: cs)).1 ::
      wordsepSplit fuel ((wordsepStep left (c :: cs)).1.reverse ++ left)
        (wordsepStep left (c :: cs)).2

/-- `textwrap._split` on a whole text. -/
def textwrapSplit (cs : List Char) : List (List Char) :=
  wordsepSplit (cs.length + 1) [] cs

/-- `chunk.strip() == ''`: the chunk is all whitespace. -/
def stripIsEmpty (ch : List Char) : Bool := ch.all pyIsSpace

/-- Does a line of length `n` fit within the width? (`cur_len + l <= width`;
an unbounded width always fits.) -/
def wFits : Option ℕ → ℕ → Bool
  | none, _ => true
  | some W, n => decide (n ≤ W)

/-- The greedy inner loop of `_wrap_chunks`: move chunks onto the current
line while they fit, returning the line's chunks and the remainder. -/
def takeFit (w : Option ℕ) : ℕ → List (List Char) → List (List Char) × List (List Char)
  | _, [] => ([], [])
  | cur, ch :: rest =>
    if wFits w (cur + ch.length) then
      ((ch :: (takeFit w (cur + ch.length) rest).1), (takeFit w (cur + ch.length) rest).2)
    else ([], ch :: rest)

/-- Total length of the chunks already on the line (`cur_len`). -/
def sumLens (L : List (List Char)) : ℕ := (L.map List.length).sum

/-- `space_left` of `_handle_long_word`. -/
def spaceLeft (W cur : ℕ) : ℕ := if W < 1 then 1 else W - cur

/-- Rightmost index `< bound` (on the list passed, indices offset by the
second argument) holding a hyphen, preferring the recursive (later)
occurrence. -/
def lastHyphenIdxAux : List Char → ℕ → Option ℕ
  | [], _ => none
  | c :: t, i =>
    match lastHyphenIdxAux t (i + 1) with
    | some j => some j
    | none => if c = '-' then some i else none

/-- `chunk.rfind('-', 0, bound)`: the largest index of a hyphen among the
first `bound` characters, if any. -/
def lastHyphenIdx (cs : List Char) (bound : ℕ) : Option ℕ :=
  lastHyphenIdxAux (cs.take bound) 0

/-- The break position `end` of `_handle_long_word` with
`break_on_hyphens`: when the chunk exceeds the remaining space, break just
after the last hyphen that fits, provided it is not at position 0 and
non-hyphen text precedes it; otherwise break at `space_left`. -/
def breakEnd (big : List Char) (sl : ℕ) : ℕ :=
  if sl < big.length then
    match lastHyphenIdx big sl with
    | some h => if 0 < h ∧ (big.take h).any (fun c => c != '-') then h + 1 else sl
    | none => sl
  else sl

/-- `_handle_long_word` with `break_long_words` and `break_on_hyphens`:
when the next chunk is longer than the full width, break off a piece — at
the hyphen-aware position `breakEnd` within the space still left on the
current line — and leave the rest as a chunk. -/
def handleLong (w : Option ℕ) (curLine rem : List (List Char)) :
    List (List Char) × List (List Char) :=
  match w, rem with
  | some W, big :: rest =>
    if W < big.length then
      (curLine ++ [big.take (breakEnd big (spaceLeft W (sumLens curLine)))],
       big.drop (breakEnd big (spaceLeft W (sumLens curLine))) :: rest)
    else (curLine, big :: rest)
  | _, rem => (curLine, rem)

/-- `drop_whitespace` at the end of a line: if the last chunk of the line is
all whitespace, delete it. -/
def dropTrailingWs (cur : List (List Char)) : List (List Char) :=
  match cur.getLast? with
  | some last => if stripIsEmpty last then cur.dropLast else cur
  | none => cur

/-- Join the chunks of one line. -/
def joinChunks (L : List (List Char)) : List Char := L.foldr (· ++ ·) []

/-- One outer iteration of `_wrap_chunks` after the leading-whitespace drop:
greedy fill, long-word handling, trailing-whitespace drop. -/
def wrapStep (w : Option ℕ) (chunks : List (List Char)) :
    List (List Char) × List (List Char) :=
  let tf := takeFit w 0 chunks
  let hl := handleLong w tf.1 tf.2
  (dropTrailingWs hl.1, hl.2)

/-- The outer loop of `_wrap_chunks`.  `hasLines` records whether a line was
already emitted (`drop_whitespace` deletes a leading whitespace chunk only
then); the fuel argument is an embedding artifact, always called with more
fuel than the loop can consume. -/
def wrapGo (w : Option ℕ) : ℕ → Bool → List (List Char) → List (List Char)
  | 0, _, _ => []
  | _ + 1, _, [] => []
  | n + 1, hasLines, ch :: rest =>
    if hasLines && stripIsEmpty ch then
      wrapGo w n hasLines rest
    else
      let p := wrapStep w (ch :: rest)
      if p.1.isEmpty then wrapGo w n hasLines p.2
      else joinChunks p.1 :: wrapGo w n true p.2

/-- `textwrap.wrap(s, w)`: the list of wrapped lines. -/
def pyWrap (w : Option ℕ) (s : String) : List String :=
  (wrapGo w (2 * s.length + 2) false (textwrapSplit (munge s.data))).map String.mk

/-- `textwrap.fill(s, w)`: the wrapped lines joined by newlines. -/
def pyFill (w : Option ℕ) (s : String) : String :=
  String.intercalate "\n" (pyWrap w s)

/-- The value field of a written header line: `""` when `record.target_value`
is falsy (`None`, but also `0.0`), otherwise `str(value)` followed by one
space. -/
def valueField (r : TBFSBS_Record) : String :=
  match r.target_value with
  | some x => if x = 0 then "" else pyFloatStr x ++ " "
  | none => ""

/-- The accumulated output of `TBFSBS.write`: per record the header line
`"% " + id + " " + value + description` and the wrapped sequence. -/
def TBFSBS.records_str (c : TBFSBS) (wrap : Option ℕ) : String :=
  String.join (c._list.map fun r =>
    "% " ++ r.identifier ++ " " ++ valueField r ++ r.description ++ "\n" ++
      pyFill wrap r.sequence ++ "\n")

/-- `TBFSBS.write`: the accumulated output with its last character removed
(`records_str[:-1]`), returned instead of being written to the sink. -/
def TBFSBS.write (c : TBFSBS) (wrap : Option ℕ) : String :=
  (c.records_str wrap).dropRight 1

/-! Helper lemmas. -/

theorem pyRound1_zero : pyRound1 0 = 0 := by
  decide

theorem wrapGo_nil (w : Option ℕ) (n : ℕ) (hl : Bool) :
    wrapGo w n hl [] = [] := by
  cases n <;> rfl

/-- C1: the round-trip property fails on the code.  A Collection built by
parsing the well-formed input `"% A 0.0 d\nACGT\n"` holds a record with
`target_value` set to `0.0`; writing it with unbounded wrap renders the
header without the value (the truthiness check in `write` treats `0.0` like
`None`), so re-parsing the written text yields a record whose `target_value`
is unset rather than value-for-value equal. -/
theorem c1_roundtrip_loses_zero_value :
    (TBFSBS.mk []).parse "% A 0.0 d\nACGT\n" =
      .ok (TBFSBS.mk [⟨"A", some 0, "d", "ACGT"⟩]) ∧
    (TBFSBS.mk [⟨"A", some 0, "d", "ACGT"⟩]).write none = "% A d\nACGT" ∧
    (TBFSBS.mk []).parse "% A d\nACGT" =
      .ok (TBFSBS.mk [⟨"A", none, "d", "ACGT"⟩]) :=
  ⟨rfl, rfl, rfl⟩

/-- C2: parsing an input with zero header lines does not succeed with zero
records; the `for`/`else` final flush runs unconditionally and touches the
never-assigned header variables (a `NameError` in the source), modelled as
the `noHeaderSeen` failure.  On the empty file the collection stays empty
but `parse` fails instead of returning normally. -/
theorem c2_empty_input_flush_fails :
    (TBFSBS.mk []).parse "" =
      .error (MalformedRecord.noHeaderSeen, TBFSBS.mk []) :=
  rfl

/-- C3: a set `target_value` of `0` is not rendered by `write`; the
truthiness check `if record.target_value:` skips it exactly as if it were
unset, while a nonzero set value is rendered in its numeric string form
followed by one space. -/
theorem c3_zero_value_omitted_in_write :
    (TBFSBS.mk [⟨"A", some 0, "d", "s"⟩]).write none = "% A d\ns" ∧
    (TBFSBS.mk [⟨"A", some (mkRat 3 2), "d", "s"⟩]).write none =
      "% A 1.5 d\ns" :=
  ⟨rfl, rfl⟩

/-- C4: parsing a header line consisting of only the `%` marker fails with
the missing-identifier case of `MalformedRecord` (the source's `IndexError`
at `header[1]`). -/
theorem c4_lone_marker_fails :
    (TBFSBS.mk []).parse "%\n" =
      .error (MalformedRecord.missingIdentifier, TBFSBS.mk []) :=
  rfl

/-- C6: the two-record example input parses to a record `A` with value 1.5,
description "desc one" and the two body lines concatenated, followed by a
record `B` whose non-numeric second token starts the description, leaving
the value unset. -/
theorem c6_two_record_example :
    (TBFSBS.mk []).parse "% A 1.5 desc one\nACGT\nACGT\n% B desc two\nTTTT\n" =
      .ok (TBFSBS.mk [⟨"A", some (mkRat 3 2), "desc one", "ACGTACGT"⟩,
        ⟨"B", none, "desc two", "TTTT"⟩]) :=
  rfl

/-- C7: a single header line with no body parses to exactly one record with
empty sequence, unset value and empty description: the final flush runs
although the last line read was a header. -/
theorem c7_single_header_flushes :
    (TBFSBS.mk []).parse "% X\n" =
      .ok (TBFSBS.mk [⟨"X", none, "", ""⟩]) :=
  rfl

/-- C8: the summary block of every record shows, on its Value line, the
target value rounded to one decimal place when it is set — including when
it equals 0, where skipping the rounding (the source's truthiness check)
renders the same text — and the literal `None` marker when it is unset. -/
theorem c8_value_line_rounded (r : TBFSBS_Record) :
    r.str = "ID: " ++ r.identifier ++ "\nValue: " ++
      (match r.target_value with
       | some x => pyFloatStr (pyRound1 x)
       | none => "None") ++
      "\nDescription: " ++ r.description ++ "\nSequence length: " ++
      toString r.sequence.length ++ "\n" := by
  unfold TBFSBS_Record.str
  cases h : r.target_value with
  | none => simp [h, displayOptFloat]
  | some x =>
    by_cases hx : x = 0
    · subst hx
      simp [h, displayOptFloat, pyRound1_zero]
    · simp [h, hx, displayOptFloat]

/-- C9: extending a length-3 collection with a length-2 collection yields a
length-5 collection holding the first collection's records at positions
0–2 and the second collection's records at positions 3–4, in their original
relative orders. -/
theorem c9_extend_preserves_order (A B : TBFSBS) (hA : A.len = 3)
    (hB : B.len = 2) :
    (A.extend B).len = 5 ∧
    (∀ i, i < 3 → (A.extend B)._list[i]? = A._list[i]?) ∧
    (∀ j, j < 2 → (A.extend B)._list[3 + j]? = B._list[j]?) := by
  have hA' : A._list.length = 3 := hA
  have hB' : B._list.length = 2 := hB
  refine ⟨?_, ?_, ?_⟩
  · show (A._list ++ B._list).length = 5
    rw [List.length_append, hA', hB']
  · intro i hi
    exact List.getElem?_append_left (by omega)
  · intro j hj
    show (A._list ++ B._list)[3 + j]? = B._list[j]?
    rw [List.getElem?_append_right (by omega), hA']
    simp

/-- C9 witness: two concrete collections of lengths 3 and 2 extend to
length 5. -/
theorem c9_witness :
    ((TBFSBS.mk [⟨"a", none, "", ""⟩, ⟨"b", none, "", ""⟩,
        ⟨"c", none, "", ""⟩]).extend
      (TBFSBS.mk [⟨"d", none, "", ""⟩, ⟨"e", none, "", ""⟩])).len = 5 :=
  (c9_extend_preserves_order
    (TBFSBS.mk [⟨"a", none, "", ""⟩, ⟨"b", none, "", ""⟩, ⟨"c", none, "", ""⟩])
    (TBFSBS.mk [⟨"d", none, "", ""⟩, ⟨"e", none, "", ""⟩]) rfl rfl).1

/-- C10: when the first line of the input is a non-header line, `parse`
fails at once — the sequence accumulator `seq` was never initialised, a
`NameError` in the source, modelled as the `noHeaderSeen` failure — with no
record appended, instead of silently skipping the leading lines. -/
theorem c10_leading_body_line_fails (s l : String) (ls : List String)
    (h1 : pyLines s = l :: ls) (h2 : pyStartsWith l '%' = false) :
    (TBFSBS.mk []).parse s =
      .error (MalformedRecord.noHeaderSeen, TBFSBS.mk []) := by
  unfold TBFSBS.parse
  rw [h1]
  simp [parseGo, h2]

/-- C10 witness: a concrete input whose first line is a body line fails
with no record appended. -/
theorem c10_witness :
    (TBFSBS.mk []).parse "ACGT\n% A x\n" =
      .error (MalformedRecord.noHeaderSeen, TBFSBS.mk []) :=
  c10_leading_body_line_fails "ACGT\n% A x\n" "ACGT" ["% A x"] rfl rfl
